import Mathlib

/-!
Shallow embedding of the expense-tracker backend's transaction service
(`controllers/transactionController.ts`, `models/transactionModel.ts`).

Conventions of the embedding:
* Mongo ObjectIds and user ids are modelled as `String` (they are compared in
  the source via `toString()`).
* Timestamps (`date`, `createdAt`, `updatedAt`, and "now") are milliseconds
  since the Unix epoch as `Int`, with the civil-calendar conversion
  (`getMonth`, `setMonth`, `$year`, `$month`, `toLocaleString month:"short"`)
  implemented by the standard days-from-civil algorithm, assuming UTC.
* `amount` is modelled as `Int` (the claims are about the algebraic structure
  of the sums, not about floating-point rounding).
* The record store (`Transaction` collection) is a `List Tx`; `findById` is
  the first list element with the given id (ids are unique in the store).
-/

/-- The `type` field of a transaction: the schema's closed enum
`["income", "expense"]`. -/
inductive Kind where
  | income
  | expense
  deriving DecidableEq

/-- A transaction document (`transactionSchema` with `timestamps: true`).
`category` is the only optional field; `date` defaults to `Date.now` at
creation. -/
structure Tx where
  id : String
  userId : String
  title : String
  amount : Int
  type : Kind
  category : Option String
  date : Int
  createdAt : Int
  updatedAt : Int
  deriving DecidableEq

/-! ### Civil-calendar arithmetic (UTC)

`daysFromCivil`/`civilFromDays` are the classic Gregorian conversion used by
JS `Date` internals; `daysFromCivil` is linear in the day argument, which is
exactly JS `MakeDay`'s behaviour on out-of-range days (so `setMonth` day
overflow is modelled faithfully). -/

def msPerDay : Int := 86400000

/-- Days since 1970-01-01 of the civil date (y, m, d), m in 1..12. -/
def daysFromCivil (y m d : Int) : Int :=
  let y2 := if m ≤ 2 then y - 1 else y
  let era := (if 0 ≤ y2 then y2 else y2 - 399) / 400
  let yoe := y2 - era * 400
  let mp := if 2 < m then m - 3 else m + 9
  let doy := (153 * mp + 2) / 5 + d - 1
  let doe := yoe * 365 + yoe / 4 - yoe / 100 + doy
  era * 146097 + doe - 719468

/-- Civil date (y, m, d) of a day count since 1970-01-01. -/
def civilFromDays (z0 : Int) : Int × Int × Int :=
  let z := z0 + 719468
  let era := (if 0 ≤ z then z else z - 146096) / 146097
  let doe := z - era * 146097
  let yoe := (doe - doe / 1460 + doe / 36524 - doe / 146096) / 365
  let y := yoe + era * 400
  let doy := doe - (365 * yoe + yoe / 4 - yoe / 100)
  let mp := (5 * doy + 2) / 153
  let d := doy - (153 * mp + 2) / 5 + 1
  let m := if mp < 10 then mp + 3 else mp - 9
  (if m ≤ 2 then y + 1 else y, m, d)

/-- Build a timestamp from a civil date plus milliseconds within the day. -/
def mkTs (y m d ms : Int) : Int := daysFromCivil y m d * msPerDay + ms

/-- JS `Date.prototype.getMonth` (0-based month), UTC. -/
def jsGetMonth (ts : Int) : Int := (civilFromDays (Int.fdiv ts msPerDay)).2.1 - 1

/-- JS `Date.prototype.setMonth m` (0-based, may be negative or ≥ 12; the
year is adjusted and day overflow rolls into the next month), UTC. -/
def jsSetMonth (ts m : Int) : Int :=
  let z := Int.fdiv ts msPerDay
  let msod := Int.emod ts msPerDay
  let c := civilFromDays z
  mkTs (c.1 + Int.fdiv m 12) (Int.emod m 12 + 1) c.2.2 msod

/-- JS `setHours(0, 0, 0, 0)`: truncate a timestamp to midnight, UTC. -/
def setHours0 (ts : Int) : Int := Int.fdiv ts msPerDay * msPerDay

/-- Month of a record's `date`, as the pair (year, month) used by the
summary aggregation's `$year`/`$month`. -/
def ymOf (date : Int) : Int × Int :=
  let c := civilFromDays (Int.fdiv date msPerDay)
  (c.1, c.2.1)

/-! ### Single-record operations (getById / update / delete / create) -/

/-- Result of a single-record request, tagged with its HTTP status:
400 `Invalid id`, 404 `Transaction not found`, 403 `Not authorized`,
or the 200 payload. -/
inductive OpResult (α : Type) where
  | invalidId
  | notFound
  | forbidden
  | ok (a : α)
  deriving DecidableEq

/-- `mongoose.isValidObjectId` on a string: a 24-character hex string or any
12-character string. -/
def isValidObjectId (s : String) : Bool :=
  (s.length == 24 && s.toList.all (fun c =>
    c.isDigit || ('a' ≤ c && c ≤ 'f') || ('A' ≤ c && c ≤ 'F'))) ||
  s.length == 12

/-- `Transaction.findById`: the (unique) stored record with the given id. -/
def findById (store : List Tx) (id : String) : Option Tx :=
  store.find? (fun t => t.id == id)

/-- `getTransactionById`: validity check, then existence check, then
ownership check (`ownerId.toString() !== requesterId.toString()`). -/
def getTransactionById (store : List Tx) (caller id : String) : OpResult Tx :=
  if isValidObjectId id then
    match findById store id with
    | none => .notFound
    | some t => if t.userId ≠ caller then .forbidden else .ok t
  else .invalidId

/-- The update request body: every field is optional (`req.body` is passed to
`findByIdAndUpdate` as-is).  The TypeScript interface does not protect
`userId`; `createdAt`/`updatedAt` are listed because mongoose's timestamps
handling strips the former and overwrites the latter. -/
structure UpdateBody where
  title : Option String := none
  amount : Option Int := none
  type : Option Kind := none
  category : Option (Option String) := none
  date : Option Int := none
  userId : Option String := none
  createdAt : Option Int := none
  updatedAt : Option Int := none
  deriving DecidableEq

/-- Effect of `findByIdAndUpdate(id, updates, { new: true })` on one
document: each field present in the body is `$set`; mongoose's
`timestamps: true` deletes `createdAt` from the update and sets `updatedAt`
to now.  `_id` is immutable in MongoDB.  Nothing strips `userId`. -/
def applyUpdate (t : Tx) (b : UpdateBody) (now : Int) : Tx :=
  { id := t.id
    userId := b.userId.getD t.userId
    title := b.title.getD t.title
    amount := b.amount.getD t.amount
    type := b.type.getD t.type
    category := b.category.getD t.category
    date := b.date.getD t.date
    createdAt := t.createdAt
    updatedAt := now }

/-- `updateTransaction`: validity, existence, ownership, then
`findByIdAndUpdate` returning the updated document. -/
def updateTransaction (store : List Tx) (caller id : String) (b : UpdateBody)
    (now : Int) : OpResult Tx × List Tx :=
  if isValidObjectId id then
    match findById store id with
    | none => (.notFound, store)
    | some existing =>
      if existing.userId ≠ caller then (.forbidden, store)
      else
        (.ok (applyUpdate existing b now),
         store.map (fun t => if t.id == id then applyUpdate t b now else t))
  else (.invalidId, store)

/-- `deleteTransaction`: validity, existence, ownership, then
`transaction.deleteOne()`. -/
def deleteTransaction (store : List Tx) (caller id : String) :
    OpResult Unit × List Tx :=
  if isValidObjectId id then
    match findById store id with
    | none => (.notFound, store)
    | some t =>
      if t.userId ≠ caller then (.forbidden, store)
      else (.ok (), store.filter (fun u => u.id ≠ id))
  else (.invalidId, store)

/-- The create request body
`{title, amount, type, category?, date?}` (all fields optional at the JSON
level; the controller validates presence). -/
structure CreateBody where
  title : Option String := none
  amount : Option Int := none
  type : Option Kind := none
  category : Option String := none
  date : Option Int := none
  deriving DecidableEq

/-- Result of `createTransaction`: 400 `title, amount and type are required`,
or 201 plus the created record. -/
inductive CreateResult where
  | validationError
  | created (t : Tx)
  deriving DecidableEq

/-- `createTransaction`: the check `!title || amount == null || !type`
(JS falsiness: an *empty-string* title is rejected exactly like a missing
one; `amount == null` only catches absence, so `amount = 0` passes); on
success the record is created with `userId` from the caller and `date`
defaulting to `Date.now`. -/
def createTransaction (store : List Tx) (caller : String) (b : CreateBody)
    (newId : String) (now : Int) : CreateResult × List Tx :=
  match b.title, b.amount, b.type with
  | some title, some amount, some ty =>
    if title = "" then (.validationError, store)
    else
      let t : Tx :=
        { id := newId, userId := caller, title := title, amount := amount,
          type := ty, category := b.category, date := b.date.getD now,
          createdAt := now, updatedAt := now }
      (.created t, store ++ [t])
  | _, _, _ => (.validationError, store)

/-! ### Listing (`getTransactions`): filter, sort, skip/limit pagination -/

/-- JS `parseInt(s, 10)`: skip leading whitespace, optional sign, then the
longest digit prefix; `none` models `NaN` (no parsable digits). -/
def parseDigits (cs : List Char) : Option Int :=
  let ds := cs.takeWhile Char.isDigit
  if ds.isEmpty then none
  else some (ds.foldl (fun acc c => acc * 10 + Int.ofNat (c.toNat - '0'.toNat)) 0)

def parseIntJS (s : String) : Option Int :=
  match s.toList.dropWhile (fun c => c == ' ' || c == '\t' || c == '\n' || c == '\r') with
  | '-' :: rest => (parseDigits rest).map (fun n => -n)
  | '+' :: rest => parseDigits rest
  | cs => parseDigits cs

/-- `Math.max(1, parseInt(raw ?? deflt, 10))`.  `Math.max(1, NaN)` is `NaN`,
modelled as `none`: a non-numeric parameter is *not* clamped to 1. -/
def resolveParam (deflt : String) (raw : Option String) : Option Int :=
  match parseIntJS (raw.getD deflt) with
  | none => none
  | some n => some (max 1 n)

/-- The query string of `GET /api/transactions`
(`?page&limit&type&category&startDate&endDate`).  Date parameters are
modelled as already-parsed timestamps. -/
structure Query where
  page : Option String := none
  limit : Option String := none
  type : Option String := none
  category : Option String := none
  startDate : Option Int := none
  endDate : Option Int := none
  deriving DecidableEq

/-- The dynamic Mongo filter object `{ userId, type?, category?, date? }`. -/
structure TxFilter where
  userId : String
  type : Option String := none
  category : Option String := none
  startDate : Option Int := none
  endDate : Option Int := none
  deriving DecidableEq

/-- JS truthiness on an optional string parameter: `if (x) filter.k = x`
skips both an absent and an empty-string parameter. -/
def nonEmptyOpt (o : Option String) : Option String :=
  match o with
  | some s => if s = "" then none else some s
  | none => none

def buildFilter (owner : String) (q : Query) : TxFilter :=
  { userId := owner
    type := nonEmptyOpt q.type
    category := nonEmptyOpt q.category
    startDate := q.startDate
    endDate := q.endDate }

def kindToString (k : Kind) : String :=
  match k with
  | .income => "income"
  | .expense => "expense"

/-- Whether a stored document matches the Mongo filter (equality on
`type`/`category`, `$gte`/`$lte` range on `date`). -/
def matchesFilter (f : TxFilter) (t : Tx) : Bool :=
  t.userId == f.userId &&
  (match f.type with | none => true | some s => kindToString t.type == s) &&
  (match f.category with | none => true | some c => t.category == some c) &&
  (match f.startDate with | none => true | some s => decide (s ≤ t.date)) &&
  (match f.endDate with | none => true | some e => decide (t.date ≤ e))

/-- The sort key of `.sort({ date: -1 })`: date descending. -/
def dateDesc (a b : Tx) : Prop := b.date ≤ a.date

instance : DecidableRel dateDesc := fun a b => inferInstanceAs (Decidable (b.date ≤ a.date))

instance : IsTotal Tx dateDesc := ⟨fun a b => le_total b.date a.date⟩

instance : IsTrans Tx dateDesc := ⟨fun _ _ _ hab hbc => le_trans hbc hab⟩

def sortDesc (l : List Tx) : List Tx := List.insertionSort dateDesc l

/-- The response body of the list endpoint:
`{ transactions, total, page, pages }`. -/
structure ListResult where
  transactions : List Tx
  total : Nat
  page : Nat
  pages : Nat
  deriving DecidableEq

/-- Core of `getTransactions` after page/limit resolution:
`countDocuments(filter)`, then `find(filter).sort({date:-1})
.skip((pageNum-1)*lim).limit(lim)`, and `pages = Math.ceil(total/lim)`
(for `lim ≥ 1` the float ceiling equals `(total + lim - 1) / lim` in `Nat`). -/
def listTxs (store : List Tx) (f : TxFilter) (pageNum lim : Nat) : ListResult :=
  let matched := store.filter (matchesFilter f)
  { transactions := ((sortDesc matched).drop ((pageNum - 1) * lim)).take lim
    total := matched.length
    page := pageNum
    pages := (matched.length + lim - 1) / lim }

/-- The full `getTransactions` controller: resolve `page`/`limit` (defaults
`"1"`/`"20"`), build the filter, list.  `none` is the `NaN` case: the code
would pass `NaN` to the driver's `skip`, whose behaviour is outside this
model. -/
def getTransactions (store : List Tx) (caller : String) (q : Query) :
    Option ListResult :=
  match resolveParam "1" q.page, resolveParam "20" q.limit with
  | some p, some l => some (listTxs store (buildFilter caller q) p.toNat l.toNat)
  | _, _ => none

/-! ### Aggregations (`getSummary`, `getAnalytics`) -/

/-- All of one owner's records (the `{ userId }` match). -/
def ownerRecords (store : List Tx) (owner : String) : List Tx :=
  store.filter (fun t => t.userId == owner)

/-- `$sum { $cond: [{ $eq: ["$type", k] }, "$amount", 0] }`. -/
def condSum (l : List Tx) (k : Kind) : Int :=
  (l.map (fun t => if t.type = k then t.amount else 0)).sum

/-- The summary window start:
`startDate = new Date(); startDate.setMonth(getMonth() - 5);
startDate.setHours(0,0,0,0)` — midnight of the day **5** months before now. -/
def summaryStart (now : Int) : Int := setHours0 (jsSetMonth now (jsGetMonth now - 5))

/-- The records feeding the monthly series:
`$match: { userId, date: { $gte: startDate } }`. -/
def windowRecords (store : List Tx) (owner : String) (now : Int) : List Tx :=
  store.filter (fun t => t.userId == owner && decide (summaryStart now ≤ t.date))

/-- One group of the monthly aggregation:
`_id: {year, month}`, conditional sums for income and expense. -/
structure MonthBucket where
  year : Int
  month : Int
  income : Int
  expense : Int
  deriving DecidableEq

/-- Ascending (year, month) order of the final `$sort`. -/
def ymLe (a b : Int × Int) : Prop := a.1 < b.1 ∨ (a.1 = b.1 ∧ a.2 ≤ b.2)

instance : DecidableRel ymLe := fun a b =>
  inferInstanceAs (Decidable (a.1 < b.1 ∨ (a.1 = b.1 ∧ a.2 ≤ b.2)))

instance : IsTotal (Int × Int) ymLe :=
  ⟨fun a b => by
    rcases lt_trichotomy a.1 b.1 with h | h | h
    · exact Or.inl (Or.inl h)
    · rcases le_total a.2 b.2 with h2 | h2
      · exact Or.inl (Or.inr ⟨h, h2⟩)
      · exact Or.inr (Or.inr ⟨h.symm, h2⟩)
    · exact Or.inr (Or.inl h)⟩

instance : IsTrans (Int × Int) ymLe :=
  ⟨fun a b c hab hbc => by
    rcases hab with h | ⟨he, h2⟩
    · rcases hbc with h' | ⟨he', _⟩
      · exact Or.inl (lt_trans h h')
      · exact Or.inl (he' ▸ h)
    · rcases hbc with h' | ⟨he', h2'⟩
      · exact Or.inl (he ▸ h')
      · exact Or.inr ⟨he.trans he', le_trans h2 h2'⟩⟩

/-- The `monthly` pipeline of `getSummary`: match on owner and window,
project `$year`/`$month`, group by (year, month) with conditional sums,
sort ascending by (year, month). -/
def monthlySeries (store : List Tx) (owner : String) (now : Int) : List MonthBucket :=
  let matched := windowRecords store owner now
  let keys := (matched.map (fun t => ymOf t.date)).dedup
  (List.insertionSort ymLe keys).map (fun k =>
    { year := k.1
      month := k.2
      income := condSum (matched.filter (fun t => ymOf t.date == k)) .income
      expense := condSum (matched.filter (fun t => ymOf t.date == k)) .expense })

/-- The `totals` pipeline of `getSummary`: group the owner's records by
`$type`, summing `$amount`. -/
def typeGroups (store : List Tx) (owner : String) : List (Kind × Int) :=
  let matched := ownerRecords store owner
  ((matched.map Tx.type).dedup).map (fun k =>
    (k, ((matched.filter (fun t => t.type == k)).map Tx.amount).sum))

/-- `totals.find(t => t._id === "income")?.total || 0`. -/
def totalIncome (store : List Tx) (owner : String) : Int :=
  match (typeGroups store owner).find? (fun g => g.1 == Kind.income) with
  | some g => g.2
  | none => 0

/-- `totals.find(t => t._id === "expense")?.total || 0`. -/
def totalExpense (store : List Tx) (owner : String) : Int :=
  match (typeGroups store owner).find? (fun g => g.1 == Kind.expense) with
  | some g => g.2
  | none => 0

/-- `getSummary`'s category pipeline: group the owner's records (no window,
no kind restriction) by literal `$category`, sort by total descending,
`$limit: 10`. -/
def categoryTotals (store : List Tx) (owner : String) : List (Option String × Int) :=
  let matched := ownerRecords store owner
  let groups := ((matched.map Tx.category).dedup).map (fun c =>
    (c, ((matched.filter (fun t => t.category == c)).map Tx.amount).sum))
  (List.insertionSort (fun a b : Option String × Int => b.2 ≤ a.2) groups).take 10

/-- `new Date(t.date).toLocaleString("default", { month: "short" })` for the
1-based month number, in the default `en` locale. -/
def monthName (m : Int) : String :=
  if m = 1 then "Jan" else if m = 2 then "Feb" else if m = 3 then "Mar"
  else if m = 4 then "Apr" else if m = 5 then "May" else if m = 6 then "Jun"
  else if m = 7 then "Jul" else if m = 8 then "Aug" else if m = 9 then "Sep"
  else if m = 10 then "Oct" else if m = 11 then "Nov" else "Dec"

/-- The month-name key `getAnalytics` buckets by (year is discarded). -/
def txMonthKey (t : Tx) : String := monthName (ymOf t.date).2

/-- `monthly[month][t.type] += t.amount`, creating `{income: 0, expense: 0}`
first when the bucket is absent.  Buckets are an assoc list in JS object
insertion order; the bucket value is the pair (income, expense). -/
def bumpPair (k : Kind) (amt : Int) (p : Int × Int) : Int × Int :=
  match k with
  | .income => (p.1 + amt, p.2)
  | .expense => (p.1, p.2 + amt)

def bumpMonthly (acc : List (String × (Int × Int))) (n : String) (k : Kind)
    (amt : Int) : List (String × (Int × Int)) :=
  match acc with
  | [] => [(n, bumpPair k amt (0, 0))]
  | (m, p) :: rest =>
    if m = n then (m, bumpPair k amt p) :: rest
    else (m, p) :: bumpMonthly rest n k amt

/-- The `monthly` object of `getAnalytics`: a scan over *all* of the owner's
records (no date window), bucketed by calendar-month name only. -/
def analyticsMonthly (store : List Tx) (owner : String) : List (String × (Int × Int)) :=
  (ownerRecords store owner).foldl
    (fun acc t => bumpMonthly acc (txMonthKey t) t.type t.amount) []

/-- `t.category || "Uncategorized"`: JS falsiness coalesces both an absent
and an empty-string category. -/
def coalesceCat (c : Option String) : String :=
  match c with
  | none => "Uncategorized"
  | some s => if s = "" then "Uncategorized" else s

/-- `categoryTotals[cat] = (categoryTotals[cat] || 0) + t.amount`. -/
def bumpCat (acc : List (String × Int)) (c : String) (amt : Int) : List (String × Int) :=
  match acc with
  | [] => [(c, 0 + amt)]
  | (m, v) :: rest =>
    if m = c then (m, v + amt) :: rest
    else (m, v) :: bumpCat rest c amt

/-- The `categoryTotals` object of `getAnalytics`: expense records only,
category coalesced to `"Uncategorized"`. -/
def analyticsCategory (store : List Tx) (owner : String) : List (String × Int) :=
  (ownerRecords store owner).foldl
    (fun acc t =>
      if t.type == Kind.expense then bumpCat acc (coalesceCat t.category) t.amount
      else acc) []

/-- Plain amount total of a record list (`$sum: "$amount"` over the list). -/
def sumAmounts (l : List Tx) : Int := (l.map Tx.amount).sum

/-- Formalisation of the trailing-window phrase of the specification —
"midnight of the day **6** months before now" — for comparison with the
code's `summaryStart` (which subtracts only 5 months). -/
def claimWindowStart (now : Int) : Int := setHours0 (jsSetMonth now (jsGetMonth now - 6))

/-- Componentwise addition of (income, expense) pairs. -/
def pairAdd (p q : Int × Int) : Int × Int := (p.1 + q.1, p.2 + q.2)

/-- The (income, expense) contribution of a record list to the analytics
month bucket named `n`. -/
def monthlyContrib (ts : List Tx) (n : String) : Int × Int :=
  (condSum (ts.filter (fun t => txMonthKey t == n)) .income,
   condSum (ts.filter (fun t => txMonthKey t == n)) .expense)

/-- The contribution of a record list to the analytics category bucket `c`:
expense records only, with the category coalesced to `"Uncategorized"`. -/
def expenseContrib (ts : List Tx) (c : String) : Int :=
  sumAmounts (ts.filter (fun t => t.type == Kind.expense && coalesceCat t.category == c))

/-! ### Concrete fixtures used by witnesses and counterexamples -/

/-- Sample stored record owned by user "A" (12-character id, a valid
ObjectId for mongoose). -/
def txA : Tx :=
  { id := "aaaaaaaaaaaa", userId := "A", title := "t", amount := 1,
    type := .income, category := none, date := 0, createdAt := 0, updatedAt := 0 }

/-- A create body in which every required field is present, but the title is
the empty string. -/
def emptyTitleBody : CreateBody :=
  { title := some "", amount := some 5, type := some .expense }

/-- A concrete "now": 2025-10-11, 12:00 UTC. -/
def now0 : Int := mkTs 2025 10 11 43200000

/-- A record of user "A" dated 2025-04-20 — after the specification's
6-month window start (2025-04-11) but before the code's 5-month window
start (2025-05-11) relative to `now0`. -/
def txApr : Tx :=
  { id := "cccccccccccc", userId := "A", title := "old", amount := 3,
    type := .expense, category := some "Food",
    date := mkTs 2025 4 20 0, createdAt := 0, updatedAt := 0 }

/-- A record of user "A" dated 2025-06-15, inside the summary window of
`now0`. -/
def txJun : Tx :=
  { id := "dddddddddddd", userId := "A", title := "mid", amount := 4,
    type := .income, category := none,
    date := mkTs 2025 6 15 0, createdAt := 0, updatedAt := 0 }

example : daysFromCivil 1970 1 1 = 0 := by decide
example : civilFromDays 0 = (1970, 1, 1) := by decide
example : civilFromDays (daysFromCivil 2025 10 11) = (2025, 10, 11) := by decide
example : jsGetMonth (mkTs 2025 10 11 43200000) = 9 := by decide
example : jsSetMonth (mkTs 2025 10 11 43200000) 4 = mkTs 2025 5 11 43200000 := by decide
example : jsSetMonth (mkTs 2025 1 15 0) (0 - 5) = mkTs 2024 8 15 0 := by decide
example : setHours0 (mkTs 2025 10 11 43200000) = mkTs 2025 10 11 0 := by decide

/-! ### Claim C1 — existence/ownership contract of getById, update, delete -/

/-- C1 counterexample: for an id of invalid ObjectId shape no record exists,
yet the operation fails with 400 `Invalid id`, not with NotFound — the
validity check runs before the existence check. -/
theorem c1_invalid_id_counterexample :
    findById ([] : List Tx) "zzz" = none ∧
    getTransactionById [] "A" "zzz" = OpResult.invalidId ∧
    getTransactionById [] "A" "zzz" ≠ OpResult.notFound := by
  refine ⟨rfl, rfl, by decide⟩

/-- C1 (amended): for every get-by-id, update, or delete request whose id is
a well-formed ObjectId: a missing record yields NotFound regardless of the
caller; a record owned by someone else (string comparison of the two ids)
yields Forbidden with the store unchanged; the owner's request returns,
modifies, or deletes the record.  Existence is checked before ownership.
(Ids of invalid shape yield a 400 invalid-id error before the existence
check, not NotFound.) -/
theorem c1_ownership_contract (store : List Tx) (caller id : String)
    (b : UpdateBody) (now : Int) (hid : isValidObjectId id = true) :
    (findById store id = none →
      getTransactionById store caller id = .notFound ∧
      updateTransaction store caller id b now = (.notFound, store) ∧
      deleteTransaction store caller id = (.notFound, store)) ∧
    (∀ t, findById store id = some t →
      (t.userId ≠ caller →
        getTransactionById store caller id = .forbidden ∧
        updateTransaction store caller id b now = (.forbidden, store) ∧
        deleteTransaction store caller id = (.forbidden, store)) ∧
      (t.userId = caller →
        getTransactionById store caller id = .ok t ∧
        (updateTransaction store caller id b now).1 = .ok (applyUpdate t b now) ∧
        (deleteTransaction store caller id).1 = .ok ())) := by
  constructor
  · intro h
    simp [getTransactionById, updateTransaction, deleteTransaction, hid, h]
  · intro t ht
    constructor
    · intro hne
      simp [getTransactionById, updateTransaction, deleteTransaction, hid, ht, hne]
    · intro heq
      simp [getTransactionById, updateTransaction, deleteTransaction, hid, ht, heq]

/-- C1 witness: concrete instances of the three outcomes. -/
theorem c1_ownership_witness :
    getTransactionById [txA] "B" "aaaaaaaaaaaa" = OpResult.forbidden ∧
    getTransactionById [txA] "A" "aaaaaaaaaaaa" = OpResult.ok txA ∧
    getTransactionById [txA] "B" "bbbbbbbbbbbb" = OpResult.notFound := by
  have h1 := c1_ownership_contract [txA] "B" "aaaaaaaaaaaa" {} 0 (by decide)
  have h2 := c1_ownership_contract [txA] "A" "aaaaaaaaaaaa" {} 0 (by decide)
  have h3 := c1_ownership_contract [txA] "B" "bbbbbbbbbbbb" {} 0 (by decide)
  exact ⟨((h1.2 txA (by decide)).1 (by decide)).1,
         ((h2.2 txA (by decide)).2 (by decide)).1,
         (h3.1 (by decide)).1⟩

/-! ### Claim C8 — create validation -/

/-- C8 counterexample: nothing is missing from the body, yet the request
fails with the ValidationError — JS falsiness rejects a present-but-empty
title. -/
theorem c8_empty_title_counterexample :
    emptyTitleBody.title ≠ none ∧ emptyTitleBody.amount ≠ none ∧
    emptyTitleBody.type ≠ none ∧
    createTransaction [] "A" emptyTitleBody "bbbbbbbbbbbb" 0 =
      (.validationError, []) := by decide

/-- C8 (amended): a create request fails with the ValidationError (400) and
creates no record when title, amount, or kind is missing **or the title is
the empty string**; otherwise it succeeds with 201, appending a new record
owned by the caller. -/
theorem c8_create_validation (store : List Tx) (caller : String)
    (b : CreateBody) (newId : String) (now : Int) :
    (b.title = none ∨ b.title = some "" ∨ b.amount = none ∨ b.type = none →
      createTransaction store caller b newId now = (.validationError, store)) ∧
    (∀ s, b.title = some s → s ≠ "" → b.amount ≠ none → b.type ≠ none →
      ∃ t, createTransaction store caller b newId now = (.created t, store ++ [t]) ∧
        t.userId = caller ∧ t.id = newId) := by
  constructor
  · intro h
    rcases ht : b.title with _ | s <;> rcases ha : b.amount with _ | a <;>
      rcases hty : b.type with _ | k <;>
      simp [createTransaction, ht, ha, hty] <;>
      rcases h with h | h | h | h <;> simp_all
  · intro s hs hne ha hty
    rcases ha' : b.amount with _ | a
    · exact absurd ha' ha
    rcases hty' : b.type with _ | k
    · exact absurd hty' hty
    exact ⟨{ id := newId, userId := caller, title := s, amount := a, type := k,
             category := b.category, date := b.date.getD now,
             createdAt := now, updatedAt := now },
           by simp [createTransaction, hs, ha', hty', hne], rfl, rfl⟩

/-- C8 witness: a fully populated create request succeeds and the new record
belongs to the caller. -/
theorem c8_create_witness :
    ∃ t, createTransaction []
        "A" { title := some "Coffee", amount := some 5, type := some Kind.expense }
        "bbbbbbbbbbbb" 7 = (.created t, [] ++ [t]) ∧
      t.userId = "A" ∧ t.id = "bbbbbbbbbbbb" :=
  (c8_create_validation [] "A"
    { title := some "Coffee", amount := some 5, type := some Kind.expense }
    "bbbbbbbbbbbb" 7).2 "Coffee" rfl (by decide) (by decide) (by decide)

/-! ### Claim C9 — page/limit coercion -/

/-- C9 counterexample: a non-numeric `page` parameter is *not* coerced to a
number at least 1 — `parseInt` gives `NaN` and `Math.max(1, NaN)` is `NaN`
(modelled as `none`), which then flows into the store driver's `skip`. -/
theorem c9_nan_counterexample :
    resolveParam "1" (some "abc") = none ∧
    getTransactions [] "A" { page := some "abc" } = none := by decide

/-- C9 (amended): the list endpoint has no rejection branch for page/limit;
whenever the (defaulted) page and limit parameters have a parsable integer
prefix — in particular when absent, zero, or negative — they are coerced to
a value of at least 1 and the request succeeds.  A parameter with no
parsable digits yields `NaN`, which is not clamped. -/
theorem c9_param_coercion (store : List Tx) (caller : String) (q : Query)
    (hp : (parseIntJS (q.page.getD "1")).isSome)
    (hl : (parseIntJS (q.limit.getD "20")).isSome) :
    ∃ p l res, resolveParam "1" q.page = some p ∧ 1 ≤ p ∧
      resolveParam "20" q.limit = some l ∧ 1 ≤ l ∧
      getTransactions store caller q = some res := by
  rcases hpp : parseIntJS (q.page.getD "1") with _ | n
  · rw [hpp] at hp; simp at hp
  rcases hll : parseIntJS (q.limit.getD "20") with _ | m
  · rw [hll] at hl; simp at hl
  refine ⟨max 1 n, max 1 m,
    listTxs store (buildFilter caller q) (max 1 n).toNat (max 1 m).toNat,
    ?_, le_max_left 1 n, ?_, le_max_left 1 m, ?_⟩ <;>
    simp [resolveParam, getTransactions, hpp, hll]

/-- C9 witness: a zero page and a negative limit are both coerced to 1 and
the request succeeds. -/
theorem c9_param_witness :
    ∃ p l res, resolveParam "1" (some "0") = some p ∧ 1 ≤ p ∧
      resolveParam "20" (some "-3") = some l ∧ 1 ≤ l ∧
      getTransactions [] "A" { page := some "0", limit := some "-3" } = some res :=
  c9_param_coercion [] "A" { page := some "0", limit := some "-3" }
    (by decide) (by decide)

/-! ### Claims C2, C3 — pagination -/

/-- Concatenating `n` consecutive take/drop chunks of width `L` restores the
whole list once `n * L` covers its length. -/
theorem flatMap_range_take_drop {α : Type} (L : Nat) :
    ∀ (n : Nat) (l : List α), l.length ≤ n * L →
      (List.range n).flatMap (fun i => (l.drop (i * L)).take L) = l := by
  intro n
  induction n with
  | zero =>
    intro l h
    simp only [Nat.zero_mul, Nat.le_zero, List.length_eq_zero] at h
    simp [h]
  | succ n ih =>
    intro l h
    have hfun : (fun i : Nat => (l.drop ((i + 1) * L)).take L) =
        (fun i : Nat => (((l.drop L).drop (i * L)).take L)) := by
      funext i
      rw [List.drop_drop, Nat.succ_mul, Nat.add_comm (i * L) L]
    have hlen : (l.drop L).length ≤ n * L := by
      rw [List.length_drop]
      rw [Nat.succ_mul] at h
      exact Nat.sub_le_iff_le_add.mpr h
    calc (List.range (n + 1)).flatMap (fun i => (l.drop (i * L)).take L)
        = l.take L ++ (List.range n).flatMap (fun i => (l.drop ((i + 1) * L)).take L) := by
          rw [List.range_succ_eq_map, List.flatMap_cons, List.flatMap_map]
          simp [Function.comp_def]
      _ = l.take L ++ (List.range n).flatMap (fun i => (((l.drop L).drop (i * L)).take L)) := by
          rw [hfun]
      _ = l.take L ++ l.drop L := by rw [ih _ hlen]
      _ = l := List.take_append_drop L l

/-- C2: for a list request with resolved page `p ≥ 1` and page size `L ≥ 1`,
the response carries the count of the filtered records as `total`, the
resolved page, `pages = ⌈total / L⌉` (0 with an empty record list when
`total = 0`), and the filtered records sorted by date descending with the
first `(p-1)*L` skipped and at most `L` taken; a page beyond the last is an
empty page, not an error. -/
theorem c2_list_pagination (store : List Tx) (f : TxFilter) (p L : Nat)
    (hp : 1 ≤ p) (hL : 1 ≤ L) :
    (listTxs store f p L).total = (store.filter (matchesFilter f)).length ∧
    (listTxs store f p L).page = p ∧
    (listTxs store f p L).pages = (store.filter (matchesFilter f)).length ⌈/⌉ L ∧
    (listTxs store f p L).transactions =
      ((sortDesc (store.filter (matchesFilter f))).drop ((p - 1) * L)).take L ∧
    (sortDesc (store.filter (matchesFilter f))).Perm (store.filter (matchesFilter f)) ∧
    List.Sorted dateDesc (sortDesc (store.filter (matchesFilter f))) ∧
    (listTxs store f p L).transactions.length ≤ L ∧
    ((store.filter (matchesFilter f)).length ≤ (p - 1) * L →
      (listTxs store f p L).transactions = []) ∧
    ((listTxs store f p L).total = 0 →
      (listTxs store f p L).pages = 0 ∧ (listTxs store f p L).transactions = []) := by
  refine ⟨rfl, rfl, rfl, rfl, List.perm_insertionSort dateDesc _,
    List.sorted_insertionSort dateDesc _, ?_, ?_, ?_⟩
  · simp [listTxs]
  · intro hbeyond
    have hlen : (sortDesc (store.filter (matchesFilter f))).length ≤ (p - 1) * L := by
      have h1 : (sortDesc (store.filter (matchesFilter f))).length =
          (store.filter (matchesFilter f)).length :=
        (List.perm_insertionSort dateDesc _).length_eq
      rw [h1]
      exact hbeyond
    simp [listTxs, List.drop_eq_nil_of_le hlen]
  · intro htot
    have h0 : (store.filter (matchesFilter f)).length = 0 := htot
    have hnl : store.filter (matchesFilter f) = [] := List.length_eq_zero.mp h0
    constructor
    · show ((store.filter (matchesFilter f)).length + L - 1) / L = 0
      rw [h0]
      exact Nat.div_eq_of_lt (by omega)
    · simp [listTxs, hnl, sortDesc, List.insertionSort]

/-- C2 witness at a concrete store and page parameters. -/
theorem c2_list_witness :
    (listTxs [txA] { userId := "A" } 1 20).total =
      ([txA].filter (matchesFilter { userId := "A" })).length ∧
    (listTxs [txA] { userId := "A" } 1 20).page = 1 :=
  ⟨(c2_list_pagination [txA] { userId := "A" } 1 20 (by decide) (by decide)).1,
   (c2_list_pagination [txA] { userId := "A" } 1 20 (by decide) (by decide)).2.1⟩

/-- C3: with a fixed filter and page size `L ≥ 1` over an unchanged store
(with its unique-id invariant), the pages 1 .. `pages` concatenate to a
permutation of the filtered record set — every matching record appears on
exactly one page — and two distinct pages never share a record. -/
theorem c3_page_partition (store : List Tx) (f : TxFilter) (L : Nat)
    (hL : 1 ≤ L) (hids : (store.map Tx.id).Nodup) :
    ((List.range (listTxs store f 1 L).pages).flatMap
        (fun i => (listTxs store f (i + 1) L).transactions)).Perm
      (store.filter (matchesFilter f)) ∧
    ∀ i j, i < j → j < (listTxs store f 1 L).pages →
      ∀ t, t ∈ (listTxs store f (i + 1) L).transactions →
        t ∈ (listTxs store f (j + 1) L).transactions → False := by
  have hperm := List.perm_insertionSort dateDesc (store.filter (matchesFilter f))
  have hcover : (sortDesc (store.filter (matchesFilter f))).length ≤
      (listTxs store f 1 L).pages * L := by
    have h1 : (sortDesc (store.filter (matchesFilter f))).length =
        (store.filter (matchesFilter f)).length := hperm.length_eq
    rw [h1]
    show (store.filter (matchesFilter f)).length ≤
      ((store.filter (matchesFilter f)).length + L - 1) / L * L
    rw [← Nat.ceilDiv_eq_add_pred_div, Nat.mul_comm, ← smul_eq_mul]
    exact le_smul_ceilDiv (by omega)
  have hpage : ∀ i : Nat, (listTxs store f (i + 1) L).transactions =
      ((sortDesc (store.filter (matchesFilter f))).drop (i * L)).take L := by
    intro i
    show ((sortDesc (store.filter (matchesFilter f))).drop ((i + 1 - 1) * L)).take L = _
    rw [Nat.add_sub_cancel]
  have hjoin : (List.range (listTxs store f 1 L).pages).flatMap
      (fun i => (listTxs store f (i + 1) L).transactions) =
      sortDesc (store.filter (matchesFilter f)) := by
    have hcv := flatMap_range_take_drop L ((listTxs store f 1 L).pages)
      (sortDesc (store.filter (matchesFilter f))) hcover
    have heq : (fun i : Nat => (listTxs store f (i + 1) L).transactions) =
        (fun i : Nat =>
          ((sortDesc (store.filter (matchesFilter f))).drop (i * L)).take L) :=
      funext hpage
    rw [heq]
    exact hcv
  constructor
  · rw [hjoin]; exact hperm
  · intro i j hij hj t hti htj
    have hnd : ((List.range (listTxs store f 1 L).pages).flatMap
        (fun i => (listTxs store f (i + 1) L).transactions)).Nodup := by
      rw [hjoin]
      exact hperm.nodup_iff.mpr ((List.Nodup.of_map Tx.id hids).filter _)
    have hdisj := (List.nodup_flatMap.mp hnd).2
    have := (List.pairwise_iff_getElem.mp hdisj) i j
      (by simpa using Nat.lt_trans hij hj) (by simpa using hj) hij
    simp only [List.getElem_range] at this
    exact this hti htj

/-- C3 witness at a concrete two-record store split into one-record pages. -/
theorem c3_page_witness :
    ((List.range (listTxs [txA] { userId := "A" } 1 1).pages).flatMap
        (fun i => (listTxs [txA] { userId := "A" } (i + 1) 1).transactions)).Perm
      ([txA].filter (matchesFilter { userId := "A" })) :=
  (c3_page_partition [txA] { userId := "A" } 1 (by decide) (by decide)).1

/-! ### Claim C5 — totals -/

/-- A `find?` over the self-pairing of a list returns the paired value of
any key present in the list. -/
theorem find_map_pair {α β : Type} [DecidableEq α] (f : α → β) (k : α) :
    ∀ l : List α, k ∈ l →
      (l.map (fun x => (x, f x))).find? (fun g => g.1 == k) = some (k, f k) := by
  intro l
  induction l with
  | nil => intro h; simp at h
  | cons x xs ih =>
    intro h
    by_cases hx : x = k
    · subst hx
      simp
    · have hk : k ∈ xs := by
        rcases List.mem_cons.mp h with h1 | h1
        · exact absurd h1.symm hx
        · exact h1
      rw [List.map_cons, List.find?_cons_of_neg _ (by simp [hx]), ih hk]

/-- The per-kind total extracted from the `$group`-by-`$type` pipeline
equals the plain sum over the records of that kind (0 when absent). -/
theorem totals_of_kind (store : List Tx) (owner : String) (k : Kind) :
    (match (typeGroups store owner).find? (fun g => g.1 == k) with
      | some g => g.2
      | none => 0) =
      sumAmounts ((ownerRecords store owner).filter (fun t => t.type == k)) := by
  by_cases hex : k ∈ ((ownerRecords store owner).map Tx.type).dedup
  · show (match (typeGroups store owner).find? (fun g => g.1 == k) with
      | some g => g.2
      | none => 0) = _
    have : typeGroups store owner =
        (((ownerRecords store owner).map Tx.type).dedup).map
          (fun k' => (k',
            ((ownerRecords store owner).filter (fun t => t.type == k')).map Tx.amount |>.sum)) := rfl
    rw [this, find_map_pair _ k _ hex]
    rfl
  · have hnone : (typeGroups store owner).find? (fun g => g.1 == k) = none := by
      apply List.find?_eq_none.mpr
      intro g hg
      simp only [typeGroups, List.mem_map] at hg
      obtain ⟨k', hk', rfl⟩ := hg
      simp only [beq_iff_eq]
      intro hkk
      exact hex (hkk ▸ hk')
    rw [hnone]
    have hfil : (ownerRecords store owner).filter (fun t => t.type == k) = [] := by
      apply List.filter_eq_nil_iff.mpr
      intro t ht
      simp only [beq_iff_eq]
      intro htk
      exact hex (List.mem_dedup.mpr (List.mem_map.mpr ⟨t, ht, htk⟩))
    rw [hfil]
    rfl

/-- Splitting the total of a record list over the two kinds. -/
theorem sumAmounts_split (l : List Tx) :
    sumAmounts l = sumAmounts (l.filter (fun t => t.type == Kind.income)) +
      sumAmounts (l.filter (fun t => t.type == Kind.expense)) := by
  induction l with
  | nil => simp [sumAmounts]
  | cons t ts ih =>
    cases hk : t.type <;>
      simp [sumAmounts, List.filter_cons, hk] at ih ⊢ <;> omega

/-- C5: `totalIncome + totalExpense` equals the sum of `amount` over all of
the owner's records, for any mix of kinds, and each total defaults to 0 when
no record of that kind exists (the `?.total || 0` fallback, no error). -/
theorem c5_totals (store : List Tx) (owner : String) :
    totalIncome store owner + totalExpense store owner =
      sumAmounts (ownerRecords store owner) ∧
    ((∀ t ∈ ownerRecords store owner, t.type ≠ Kind.income) →
      totalIncome store owner = 0) ∧
    ((∀ t ∈ ownerRecords store owner, t.type ≠ Kind.expense) →
      totalExpense store owner = 0) := by
  have hi : totalIncome store owner =
      sumAmounts ((ownerRecords store owner).filter (fun t => t.type == Kind.income)) :=
    totals_of_kind store owner Kind.income
  have he : totalExpense store owner =
      sumAmounts ((ownerRecords store owner).filter (fun t => t.type == Kind.expense)) :=
    totals_of_kind store owner Kind.expense
  refine ⟨?_, ?_, ?_⟩
  · rw [hi, he, ← sumAmounts_split]
  · intro h
    rw [hi, List.filter_eq_nil_iff.mpr (fun t ht => by simp [h t ht])]
    rfl
  · intro h
    rw [he, List.filter_eq_nil_iff.mpr (fun t ht => by simp [h t ht])]
    rfl

/-- C5 witness: a single-income store — the expense total is 0 and the sum
identity holds. -/
theorem c5_totals_witness :
    totalIncome [txA] "A" + totalExpense [txA] "A" = sumAmounts (ownerRecords [txA] "A") ∧
    totalExpense [txA] "A" = 0 :=
  ⟨(c5_totals [txA] "A").1, (c5_totals [txA] "A").2.2 (by decide)⟩

/-! ### Claim C6 — analytics -/

/-- Looking up any key after one `bumpMonthly` upsert. -/
theorem lookup_bumpMonthly (n : String) (k : Kind) (amt : Int) :
    ∀ (acc : List (String × (Int × Int))) (m : String),
      (bumpMonthly acc n k amt).lookup m =
        if m = n then some (bumpPair k amt ((acc.lookup n).getD (0, 0)))
        else acc.lookup m := by
  intro acc
  induction acc with
  | nil =>
    intro m
    by_cases hm : m = n
    · subst hm
      simp [bumpMonthly, List.lookup]
    · have hb : (m == n) = false := beq_eq_false_iff_ne.mpr hm
      simp [bumpMonthly, List.lookup, hb, hm]
  | cons e rest ih =>
    intro m
    obtain ⟨key, p⟩ := e
    by_cases hkey : key = n
    · subst hkey
      have hbump : bumpMonthly ((key, p) :: rest) key k amt =
          (key, bumpPair k amt p) :: rest := by
        simp [bumpMonthly]
      rw [hbump]
      by_cases hm : m = key
      · subst hm
        simp [List.lookup]
      · have hb : (m == key) = false := beq_eq_false_iff_ne.mpr hm
        simp [List.lookup, hb, hm]
    · have hbump : bumpMonthly ((key, p) :: rest) n k amt =
          (key, p) :: bumpMonthly rest n k amt := by
        simp [bumpMonthly, hkey]
      rw [hbump]
      have hnk : (n == key) = false :=
        beq_eq_false_iff_ne.mpr (fun he => hkey he.symm)
      by_cases hmk : m = key
      · have hbmk : (m == key) = true := by
          rw [hmk]
          exact beq_self_eq_true key
        have hmn : ¬m = n := fun he => hkey (hmk.symm.trans he)
        simp only [List.lookup, hbmk, hnk, if_neg hmn]
      · have hbmk : (m == key) = false := beq_eq_false_iff_ne.mpr hmk
        simp only [List.lookup, hbmk, hnk]
        exact ih m

/-- Looking up any key after one `bumpCat` upsert. -/
theorem lookup_bumpCat (c : String) (amt : Int) :
    ∀ (acc : List (String × Int)) (m : String),
      (bumpCat acc c amt).lookup m =
        if m = c then some ((acc.lookup c).getD 0 + amt)
        else acc.lookup m := by
  intro acc
  induction acc with
  | nil =>
    intro m
    by_cases hm : m = c
    · subst hm
      simp [bumpCat, List.lookup]
    · have hb : (m == c) = false := beq_eq_false_iff_ne.mpr hm
      simp [bumpCat, List.lookup, hb, hm]
  | cons e rest ih =>
    intro m
    obtain ⟨key, p⟩ := e
    by_cases hkey : key = c
    · subst hkey
      have hbump : bumpCat ((key, p) :: rest) key amt =
          (key, p + amt) :: rest := by
        simp [bumpCat]
      rw [hbump]
      by_cases hm : m = key
      · subst hm
        simp [List.lookup]
      · have hb : (m == key) = false := beq_eq_false_iff_ne.mpr hm
        simp [List.lookup, hb, hm]
    · have hbump : bumpCat ((key, p) :: rest) c amt =
          (key, p) :: bumpCat rest c amt := by
        simp [bumpCat, hkey]
      rw [hbump]
      have hnk : (c == key) = false :=
        beq_eq_false_iff_ne.mpr (fun he => hkey he.symm)
      by_cases hmk : m = key
      · have hbmk : (m == key) = true := by
          rw [hmk]
          exact beq_self_eq_true key
        have hmn : ¬m = c := fun he => hkey (hmk.symm.trans he)
        simp only [List.lookup, hbmk, hnk, if_neg hmn]
      · have hbmk : (m == key) = false := beq_eq_false_iff_ne.mpr hmk
        simp only [List.lookup, hbmk, hnk]
        exact ih m

/-- Rearranging one record's bump against an accumulated base. -/
theorem pairAdd_bump (kk : Kind) (a : Int) (b c : Int × Int) :
    pairAdd (bumpPair kk a b) c = pairAdd b (pairAdd (bumpPair kk a (0, 0)) c) := by
  cases kk <;> simp [pairAdd, bumpPair, Prod.ext_iff] <;> omega

/-- Characterisation of the analytics monthly fold: the bucket named `n`
exists iff some record keys to it, and then holds the (income, expense)
contribution of all such records, on top of whatever the accumulator held. -/
theorem lookup_foldl_monthly (n : String) :
    ∀ (ts : List Tx) (acc : List (String × (Int × Int))),
      ((ts.foldl (fun acc t => bumpMonthly acc (txMonthKey t) t.type t.amount) acc).lookup n) =
        if (∃ t ∈ ts, txMonthKey t = n) ∨ (acc.lookup n).isSome = true
        then some (pairAdd ((acc.lookup n).getD (0, 0)) (monthlyContrib ts n))
        else none := by
  intro ts
  induction ts with
  | nil =>
    intro acc
    simp only [List.foldl_nil]
    by_cases h : (acc.lookup n).isSome = true
    · rw [if_pos (Or.inr h)]
      obtain ⟨p, hp⟩ := Option.isSome_iff_exists.mp h
      rw [hp]
      simp [pairAdd, monthlyContrib, condSum]
    · rw [if_neg (by simp [h])]
      exact Option.not_isSome_iff_eq_none.mp h
  | cons t ts ih =>
    intro acc
    rw [List.foldl_cons, ih (bumpMonthly acc (txMonthKey t) t.type t.amount),
      lookup_bumpMonthly (txMonthKey t) t.type t.amount acc n]
    by_cases hkn : n = txMonthKey t
    · subst hkn
      rw [if_pos rfl]
      have hcontrib : monthlyContrib (t :: ts) (txMonthKey t) =
          pairAdd (bumpPair t.type t.amount (0, 0)) (monthlyContrib ts (txMonthKey t)) := by
        cases hty : t.type <;>
          simp [monthlyContrib, List.filter_cons, condSum, pairAdd, bumpPair, hty]
      rw [if_pos (Or.inr (Option.isSome_some)),
        if_pos (Or.inl ⟨t, List.mem_cons_self t ts, rfl⟩), hcontrib]
      simp only [Option.getD_some]
      rw [pairAdd_bump]
    · rw [if_neg hkn]
      have hb : (txMonthKey t == n) = false :=
        beq_eq_false_iff_ne.mpr (fun he => hkn he.symm)
      have hcontrib : monthlyContrib (t :: ts) n = monthlyContrib ts n := by
        simp [monthlyContrib, List.filter_cons, hb]
      have hcond : (∃ x ∈ t :: ts, txMonthKey x = n) ↔ (∃ x ∈ ts, txMonthKey x = n) := by
        constructor
        · rintro ⟨x, hx, hkx⟩
          rcases List.mem_cons.mp hx with rfl | hx'
          · exact absurd hkx.symm hkn
          · exact ⟨x, hx', hkx⟩
        · rintro ⟨x, hx, hkx⟩
          exact ⟨x, List.mem_cons_of_mem _ hx, hkx⟩
      rw [hcontrib]
      exact if_congr (or_congr_left hcond.symm) rfl rfl

/-- Characterisation of the analytics category fold: only expense records
feed it, keyed by the coalesced category. -/
theorem lookup_foldl_category (c : String) :
    ∀ (ts : List Tx) (acc : List (String × Int)),
      ((ts.foldl
          (fun acc t =>
            if t.type == Kind.expense then bumpCat acc (coalesceCat t.category) t.amount
            else acc) acc).lookup c) =
        if (∃ t ∈ ts, t.type = Kind.expense ∧ coalesceCat t.category = c) ∨
            (acc.lookup c).isSome = true
        then some ((acc.lookup c).getD 0 + expenseContrib ts c)
        else none := by
  intro ts
  induction ts with
  | nil =>
    intro acc
    simp only [List.foldl_nil]
    by_cases h : (acc.lookup c).isSome = true
    · rw [if_pos (Or.inr h)]
      obtain ⟨p, hp⟩ := Option.isSome_iff_exists.mp h
      rw [hp]
      simp [expenseContrib, sumAmounts]
    · rw [if_neg (by simp [h])]
      exact Option.not_isSome_iff_eq_none.mp h
  | cons t ts ih =>
    intro acc
    rw [List.foldl_cons]
    by_cases hexp : t.type = Kind.expense
    · have hbe : (t.type == Kind.expense) = true := beq_iff_eq.mpr hexp
      rw [if_pos hbe]
      rw [ih (bumpCat acc (coalesceCat t.category) t.amount),
        lookup_bumpCat (coalesceCat t.category) t.amount acc c]
      by_cases hc : c = coalesceCat t.category
      · subst hc
        rw [if_pos rfl]
        have hcontrib : expenseContrib (t :: ts) (coalesceCat t.category) =
            t.amount + expenseContrib ts (coalesceCat t.category) := by
          simp [expenseContrib, List.filter_cons, hbe, sumAmounts]
        rw [if_pos (Or.inr (Option.isSome_some)),
          if_pos (Or.inl ⟨t, List.mem_cons_self t ts, hexp, rfl⟩), hcontrib]
        simp only [Option.getD_some]
        congr 1
        ring
      · rw [if_neg hc]
        have hfc : (t.type == Kind.expense && coalesceCat t.category == c) = false := by
          simp only [Bool.and_eq_false_iff, beq_eq_false_iff_ne, ne_eq]
          right
          exact fun he => hc he.symm
        have hcontrib : expenseContrib (t :: ts) c = expenseContrib ts c := by
          simp [expenseContrib, List.filter_cons, hfc]
        have hcond : (∃ x ∈ t :: ts, x.type = Kind.expense ∧ coalesceCat x.category = c) ↔
            (∃ x ∈ ts, x.type = Kind.expense ∧ coalesceCat x.category = c) := by
          constructor
          · rintro ⟨x, hx, hkx, hcx⟩
            rcases List.mem_cons.mp hx with rfl | hx'
            · exact absurd hcx.symm hc
            · exact ⟨x, hx', hkx, hcx⟩
          · rintro ⟨x, hx, hkx, hcx⟩
            exact ⟨x, List.mem_cons_of_mem _ hx, hkx, hcx⟩
        rw [hcontrib]
        exact if_congr (or_congr_left hcond.symm) rfl rfl
    · have hbe : (t.type == Kind.expense) = false := beq_eq_false_iff_ne.mpr hexp
      rw [if_neg (by simp [hbe])]
      rw [ih acc]
      have hfc : (t.type == Kind.expense && coalesceCat t.category == c) = false := by
        simp [hbe]
      have hcontrib : expenseContrib (t :: ts) c = expenseContrib ts c := by
        simp [expenseContrib, List.filter_cons, hfc]
      have hcond : (∃ x ∈ t :: ts, x.type = Kind.expense ∧ coalesceCat x.category = c) ↔
          (∃ x ∈ ts, x.type = Kind.expense ∧ coalesceCat x.category = c) := by
        constructor
        · rintro ⟨x, hx, hkx, hcx⟩
          rcases List.mem_cons.mp hx with rfl | hx'
          · exact absurd hkx hexp
          · exact ⟨x, hx', hkx, hcx⟩
        · rintro ⟨x, hx, hkx, hcx⟩
          exact ⟨x, List.mem_cons_of_mem _ hx, hkx, hcx⟩
      rw [hcontrib]
      exact if_congr (or_congr_left hcond.symm) rfl rfl

/-- C6: analytics scans all of the owner's records with no date window; its
monthly buckets are keyed by calendar-month name only — so records from
different years with the same month name land in one bucket — holding the
income and expense sums of exactly those records; its category buckets count
only `kind=expense` records, summing `amount` per category with a
missing/empty category replaced by `"Uncategorized"`. -/
theorem c6_analytics_shape (store : List Tx) (owner : String) :
    (∀ n : String, (analyticsMonthly store owner).lookup n =
      if ∃ t ∈ ownerRecords store owner, txMonthKey t = n
      then some (monthlyContrib (ownerRecords store owner) n)
      else none) ∧
    (∀ c : String, (analyticsCategory store owner).lookup c =
      if ∃ t ∈ ownerRecords store owner,
          t.type = Kind.expense ∧ coalesceCat t.category = c
      then some (expenseContrib (ownerRecords store owner) c)
      else none) := by
  constructor
  · intro n
    have h := lookup_foldl_monthly n (ownerRecords store owner) []
    simp only [List.lookup, Option.isSome_none, Bool.false_eq_true, or_false,
      Option.getD_none] at h
    rw [show analyticsMonthly store owner = (ownerRecords store owner).foldl
      (fun acc t => bumpMonthly acc (txMonthKey t) t.type t.amount) [] from rfl, h]
    by_cases hex : ∃ t ∈ ownerRecords store owner, txMonthKey t = n
    · rw [if_pos hex, if_pos hex]
      simp [pairAdd]
    · rw [if_neg hex, if_neg hex]
  · intro c
    have h := lookup_foldl_category c (ownerRecords store owner) []
    simp only [List.lookup, Option.isSome_none, Bool.false_eq_true, or_false,
      Option.getD_none] at h
    rw [show analyticsCategory store owner = (ownerRecords store owner).foldl
      (fun acc t =>
        if t.type == Kind.expense then bumpCat acc (coalesceCat t.category) t.amount
        else acc) [] from rfl, h]
    by_cases hex : ∃ t ∈ ownerRecords store owner,
        t.type = Kind.expense ∧ coalesceCat t.category = c
    · rw [if_pos hex, if_pos hex]
      simp
    · rw [if_neg hex, if_neg hex]

/-- C6 witness: a single January income record produces exactly the "Jan"
bucket, and an uncategorised expense lands under "Uncategorized". -/
theorem c6_analytics_witness :
    (analyticsMonthly [txA] "A").lookup "Jan" =
      some (monthlyContrib (ownerRecords [txA] "A") "Jan") ∧
    (analyticsCategory [txApr] "A").lookup "Food" =
      some (expenseContrib (ownerRecords [txApr] "A") "Food") := by
  constructor
  · rw [(c6_analytics_shape [txA] "A").1 "Jan", if_pos (by decide)]
  · rw [(c6_analytics_shape [txApr] "A").2 "Food", if_pos (by decide)]

/-! ### Claim C4 — the summary's monthly series -/

/-- C4 counterexample: `txApr` (2025-04-20) lies inside the claim's
"6 months before now" window of `now0` (2025-10-11), yet the monthly series
omits it entirely — the code's window starts only 5 months back
(`setMonth(getMonth() - 5)`), at 2025-05-11. -/
theorem c4_window_counterexample :
    txApr.userId = "A" ∧
    claimWindowStart now0 ≤ txApr.date ∧
    txApr.date < summaryStart now0 ∧
    monthlySeries [txApr] "A" now0 = [] := by
  refine ⟨rfl, by decide, by decide, by decide⟩

/-- C4 (amended): the monthly series includes exactly the owner's records
with `date` on or after midnight of the day **5** months before now (a span
touching 6 calendar months); it groups them by (year, month), sums income
and expense separately per group (a missing kind contributes 0 via the
conditional sum), emits groups in ascending (year, month) order with one
bucket per key, and never emits a bucket with no contributing record. -/
theorem c4_monthly_series (store : List Tx) (owner : String) (now : Int) :
    (∀ t : Tx, t ∈ windowRecords store owner now ↔
      t ∈ store ∧ t.userId = owner ∧ summaryStart now ≤ t.date) ∧
    (∀ b ∈ monthlySeries store owner now,
      ∃ t ∈ windowRecords store owner now, ymOf t.date = (b.year, b.month)) ∧
    (∀ t ∈ windowRecords store owner now,
      ∃ b ∈ monthlySeries store owner now, (b.year, b.month) = ymOf t.date) ∧
    (∀ b ∈ monthlySeries store owner now,
      b.income = condSum ((windowRecords store owner now).filter
        (fun t => ymOf t.date == (b.year, b.month))) .income ∧
      b.expense = condSum ((windowRecords store owner now).filter
        (fun t => ymOf t.date == (b.year, b.month))) .expense) ∧
    List.Sorted ymLe ((monthlySeries store owner now).map (fun b => (b.year, b.month))) ∧
    ((monthlySeries store owner now).map (fun b => (b.year, b.month))).Nodup := by
  have hmap : (monthlySeries store owner now).map (fun b => (b.year, b.month)) =
      List.insertionSort ymLe
        (((windowRecords store owner now).map (fun t => ymOf t.date)).dedup) := by
    simp [monthlySeries, List.map_map, Function.comp_def]
  refine ⟨?_, ?_, ?_, ?_, ?_, ?_⟩
  · intro t
    simp [windowRecords, List.mem_filter, and_assoc]
  · intro b hb
    obtain ⟨k, hk, rfl⟩ := List.mem_map.mp hb
    have hk2 : k ∈ ((windowRecords store owner now).map (fun t => ymOf t.date)).dedup := by
      simpa using hk
    obtain ⟨t, ht, hkt⟩ := List.mem_map.mp (List.mem_dedup.mp hk2)
    exact ⟨t, ht, by rw [hkt]⟩
  · intro t ht
    have hk : ymOf t.date ∈
        ((windowRecords store owner now).map (fun t => ymOf t.date)).dedup :=
      List.mem_dedup.mpr (List.mem_map.mpr ⟨t, ht, rfl⟩)
    have hk2 : ymOf t.date ∈ List.insertionSort ymLe
        (((windowRecords store owner now).map (fun t => ymOf t.date)).dedup) := by
      simpa using hk
    exact ⟨_, List.mem_map.mpr ⟨ymOf t.date, hk2, rfl⟩, rfl⟩
  · intro b hb
    obtain ⟨k, hk, rfl⟩ := List.mem_map.mp hb
    exact ⟨rfl, rfl⟩
  · rw [hmap]
    exact List.sorted_insertionSort ymLe _
  · rw [hmap]
    exact (List.perm_insertionSort ymLe _).nodup_iff.mpr (List.nodup_dedup _)

/-- C4 witness: a record inside the window produces its (year, month)
bucket. -/
theorem c4_monthly_witness :
    ∃ b ∈ monthlySeries [txJun] "A" now0, (b.year, b.month) = ymOf txJun.date :=
  (c4_monthly_series [txJun] "A" now0).2.2.1 txJun (by decide)

/-! ### Claim C7 — update frame -/

/-- C7 counterexample: an update body containing a `userId` field changes
the record's owner — the code passes `req.body` to `findByIdAndUpdate`
unfiltered, so `ownerId` is *not* protected. -/
theorem c7_update_userid_counterexample :
    txA.userId = "A" ∧
    (updateTransaction [txA] "A" "aaaaaaaaaaaa" { userId := some "B" } 5).1 =
      OpResult.ok (applyUpdate txA { userId := some "B" } 5) ∧
    ((updateTransaction [txA] "A" "aaaaaaaaaaaa" { userId := some "B" } 5).2.map
      Tx.userId) = ["B"] := by
  refine ⟨rfl, by decide, by decide⟩

/-- C7 (amended): for every update request that passes the existence and
ownership checks, whatever partial fields the body contains, the record's
`id` and `createdAt` are unchanged (mongoose strips `createdAt` from
updates; `_id` is immutable) and `updatedAt` is refreshed to now; `userId`
is preserved only when the body does not itself contain a `userId` field —
it, like every remaining field, is replaceable. -/
theorem c7_update_frame (store : List Tx) (caller id : String) (b : UpdateBody)
    (now : Int) (t : Tx) (hid : isValidObjectId id = true)
    (hfound : findById store id = some t) (hown : t.userId = caller) :
    (updateTransaction store caller id b now).1 = .ok (applyUpdate t b now) ∧
    (applyUpdate t b now).id = t.id ∧
    (applyUpdate t b now).createdAt = t.createdAt ∧
    (applyUpdate t b now).updatedAt = now ∧
    (b.userId = none → (applyUpdate t b now).userId = t.userId) := by
  refine ⟨?_, rfl, rfl, rfl, ?_⟩
  · simp [updateTransaction, hid, hfound, hown]
  · intro hnone
    simp [applyUpdate, hnone]

/-- C7 witness: an amount-only update keeps `id`, `ownerId`, `createdAt`
and refreshes `updatedAt`. -/
theorem c7_update_witness :
    (updateTransaction [txA] "A" "aaaaaaaaaaaa" { amount := some 8 } 5).1 =
      OpResult.ok (applyUpdate txA { amount := some 8 } 5) ∧
    (applyUpdate txA { amount := some 8 } 5).createdAt = txA.createdAt ∧
    (applyUpdate txA { amount := some 8 } 5).updatedAt = 5 ∧
    (applyUpdate txA { amount := some 8 } 5).userId = txA.userId := by
  have h := c7_update_frame [txA] "A" "aaaaaaaaaaaa" { amount := some 8 } 5 txA
    (by decide) (by decide) rfl
  exact ⟨h.1, h.2.2.1, h.2.2.2.1, h.2.2.2.2 rfl⟩
